import Mathlib

/-!
Verification of the session-store engine of `express-session-mongo`
(`src/MongoStoreBase.ts`), shallowly embedded in Lean.

Modelling conventions:
* The mongo collection is a list of documents; `findOne` returns the first
  match, `updateOne`/`deleteOne` act on the first match, `deleteMany` and
  `find` act on all matches, `countDocuments` counts matches.
* Clock reads (`new Date().getTime()`) are passed in as a `now : Nat`
  parameter (epoch milliseconds).
* JS exceptions thrown over a mutable receiver are modelled by returning the
  (possibly partially mutated) state together with `some errorMessage`;
  operations surface those as `Except.error`.
* The storage layer may reject a `createIndex` call; the oracle
  `idxFail : String → Bool` (keyed by index name) models that environment.
* Payloads are opaque: every definition is polymorphic in the payload type.
-/

namespace ExpressSessionMongo

/-- Strategy to clean up expired entries (source: `MongoSessionCleanupStrategy`). -/
inductive MongoSessionCleanupStrategy where
  | native
  | interval
deriving DecidableEq, Repr

/-- Construction parameters (source: `MongoStoreParams`).  The mongo client
handle is opaque to the engine: only its JS truthiness matters, so it is
`Option Unit`.  `dbName` and `collection` are checked with `!s`, which for a
string is true exactly when it is empty, so they stay plain strings.  The
source field `prefix` is a reserved word in Lean and is rendered `prefixStr`. -/
structure MongoStoreParams where
  client : Option Unit
  dbName : String
  collection : String
  cleanupStrategy : Option MongoSessionCleanupStrategy
  ttlMs : Nat
  prefixStr : Option String
deriving DecidableEq

/-- A stored session document (source: interface `SessionData`), with payload
type `α`.  `expiresMs` and `updatedAt` are epoch milliseconds. -/
structure SessionData (α : Type) where
  sessionId : String
  data : α
  expiresMs : Nat
  updatedAt : Nat
deriving DecidableEq, Repr

/-- The engine instance fields (source: class `MongoStoreBase`).  The
`collection` handle of the source is only ever assigned together with
`client`; `collectionSet` records that assignment. -/
structure MongoStoreBase where
  hasInit : Bool
  config : MongoStoreParams
  client : Option Unit
  collectionSet : Bool
  prefixStr : String
deriving DecidableEq

/-- The constructor of `MongoStoreBase` (`config.prefix || ''` defaults the
prefix to the empty string; `this.client = null`). -/
def mkMongoStoreBase (config : MongoStoreParams) : MongoStoreBase :=
  { hasInit := false
    config := config
    client := none
    collectionSet := false
    prefixStr := config.prefixStr.getD "" }

/-- Engine state together with the backing collection contents and the log of
`createIndex` calls the storage layer has received. -/
structure StoreState (α : Type) where
  engine : MongoStoreBase
  records : List (SessionData α)
  indexLog : List String
deriving DecidableEq

/-- `MongoStoreBase.getSid`: key formatting is prefix concatenation. -/
def getSid (e : MongoStoreBase) (sid : String) : String :=
  e.prefixStr ++ sid

/-- A `createIndex(name)` call issued to the storage layer: the storage layer
receives the call (it is appended to the log); `idxFail` says whether it then
fails, in which case the error is thrown. -/
def createIndex (idxFail : String → Bool) (name : String) (st : StoreState α) :
    StoreState α × Option String :=
  let st1 := { st with indexLog := st.indexLog ++ [name] }
  if idxFail name then (st1, some ("createIndex failed: " ++ name)) else (st1, none)

/-- `MongoStoreBase.init`: a no-op when `this.client` is already assigned;
otherwise validates `config.client`, `config.dbName`, `config.collection` in
that order (throwing on the first falsy one), assigns `client` and the
collection handle, then creates `session_id_idx`, `session_id_expires_idx`
and — unless the cleanup strategy is `interval` — `updated_at_ttl_idx`,
finally setting `hasInit`. -/
def init (idxFail : String → Bool) (st : StoreState α) : StoreState α × Option String :=
  if st.engine.client.isSome then (st, none)
  else if st.engine.config.client.isNone then
    (st, some "express-session-mongo: client not defined")
  else if st.engine.config.dbName = "" then
    (st, some "express-session-mongo: dbName not defined")
  else if st.engine.config.collection = "" then
    (st, some "express-session-mongo: collection not defined")
  else
    let st1 := { st with engine :=
      { st.engine with client := st.engine.config.client, collectionSet := true } }
    match createIndex idxFail "session_id_idx" st1 with
    | (st2, some e) => (st2, some e)
    | (st2, none) =>
      match createIndex idxFail "session_id_expires_idx" st2 with
      | (st3, some e) => (st3, some e)
      | (st3, none) =>
        if st3.engine.config.cleanupStrategy = none ∨
            st3.engine.config.cleanupStrategy = some MongoSessionCleanupStrategy.native then
          match createIndex idxFail "updated_at_ttl_idx" st3 with
          | (st4, some e) => (st4, some e)
          | (st4, none) => ({ st4 with engine := { st4.engine with hasInit := true } }, none)
        else ({ st3 with engine := { st3.engine with hasInit := true } }, none)

/-- `MongoStoreBase.get`: `findOne({ expiresMs: { $gt: time }, sessionId })`,
returning the document payload, or `null` when nothing matches. -/
def get (idxFail : String → Bool) (st : StoreState α) (sid : String) (now : Nat) :
    StoreState α × Except String (Option α) :=
  let formattedSid := getSid st.engine sid
  match init idxFail st with
  | (st1, some e) => (st1, Except.error e)
  | (st1, none) =>
    match st1.records.find?
        (fun r => decide (now < r.expiresMs) && (r.sessionId == formattedSid)) with
    | none => (st1, Except.ok none)
    | some resp => (st1, Except.ok (some resp.data))

/-- `updateOne` with filter `{ sessionId }`, a `$set` of every field, and
`upsert: true`: the first matching document is overwritten in place; when no
document matches, the new document is inserted. -/
def updateOneUpsert (key : String) (newDoc : SessionData α) :
    List (SessionData α) → List (SessionData α)
  | [] => [newDoc]
  | r :: rest =>
    if r.sessionId == key then newDoc :: rest else r :: updateOneUpsert key newDoc rest

/-- `MongoStoreBase.set`: upserts the document for the formatted sid with the
payload, `expiresMs = now + ttlMs` and `updatedAt = now`. -/
def set (idxFail : String → Bool) (st : StoreState α) (sid : String) (payload : α) (now : Nat) :
    StoreState α × Except String Unit :=
  match init idxFail st with
  | (st1, some e) => (st1, Except.error e)
  | (st1, none) =>
    let formattedSid := getSid st1.engine sid
    let msTtl := now + st1.engine.config.ttlMs
    let newDoc : SessionData α :=
      { sessionId := formattedSid, data := payload, expiresMs := msTtl, updatedAt := now }
    ({ st1 with records := updateOneUpsert formattedSid newDoc st1.records }, Except.ok ())

/-- `deleteOne` with filter `{ sessionId }`: removes the first matching
document, if any. -/
def deleteOne (key : String) : List (SessionData α) → List (SessionData α)
  | [] => []
  | r :: rest => if r.sessionId == key then rest else r :: deleteOne key rest

/-- `MongoStoreBase.destroy`. -/
def destroy (idxFail : String → Bool) (st : StoreState α) (sid : String) :
    StoreState α × Except String Unit :=
  match init idxFail st with
  | (st1, some e) => (st1, Except.error e)
  | (st1, none) =>
    ({ st1 with records := deleteOne (getSid st1.engine sid) st1.records }, Except.ok ())

/-- `MongoStoreBase.all`: `find({ expiresMs: { $gt: time } })` then map each
result to its `data` field. -/
def all (idxFail : String → Bool) (st : StoreState α) (now : Nat) :
    StoreState α × Except String (List α) :=
  match init idxFail st with
  | (st1, some e) => (st1, Except.error e)
  | (st1, none) =>
    (st1, Except.ok (((st1.records.filter (fun r => decide (now < r.expiresMs))).map
      (fun r => r.data))))

/-- `MongoStoreBase.length`: `countDocuments({ expiresMs: { $gt: time } })`. -/
def length (idxFail : String → Bool) (st : StoreState α) (now : Nat) :
    StoreState α × Except String Nat :=
  match init idxFail st with
  | (st1, some e) => (st1, Except.error e)
  | (st1, none) =>
    (st1, Except.ok (st1.records.countP (fun r => decide (now < r.expiresMs))))

/-- `MongoStoreBase.clear`: `deleteMany({})`. -/
def clear (idxFail : String → Bool) (st : StoreState α) :
    StoreState α × Except String Unit :=
  match init idxFail st with
  | (st1, some e) => (st1, Except.error e)
  | (st1, none) => ({ st1 with records := [] }, Except.ok ())

/-- `MongoStoreBase.touch`: awaits `init`, then delegates to `set`. -/
def touch (idxFail : String → Bool) (st : StoreState α) (sid : String) (payload : α) (now : Nat) :
    StoreState α × Except String Unit :=
  match init idxFail st with
  | (st1, some e) => (st1, Except.error e)
  | (st1, none) => set idxFail st1 sid payload now

/-- `MongoStoreBase.removeExpiredSessions`:
`deleteMany({ expiresMs: { $lt: time } })` — strictly-less-than. -/
def removeExpiredSessions (idxFail : String → Bool) (st : StoreState α) (now : Nat) :
    StoreState α × Except String Unit :=
  match init idxFail st with
  | (st1, some e) => (st1, Except.error e)
  | (st1, none) =>
    ({ st1 with records := st1.records.filter (fun r => !(decide (r.expiresMs < now))) },
      Except.ok ())

/-- The state of a freshly constructed engine over an empty collection, with
no `createIndex` call issued yet. -/
def initialState (α : Type) (config : MongoStoreParams) : StoreState α :=
  { engine := mkMongoStoreBase config, records := [], indexLog := [] }

/-!
### Interleaved initialization

`init` is an `async` method: on the JS event loop it runs atomically from
entry up to its first `await`, and between consecutive `await`s.  With a
valid configuration and the default (native) cleanup strategy its atomic
segments are:

* from entry: the `this.client` guard — when the client is already assigned
  the method returns at once; otherwise the configuration checks, the
  assignment of `client` and the collection handle, and the issue of
  `createIndex("session_id_idx")`, suspending until that call completes;
* on each resumption, the issue of the next `createIndex`;
* after the last one completes, `hasInit = true` and return.

A task's program counter records the suspension point it sits at; `done`
means its `init` call has returned to the caller. -/

/-- Program counter of one task running `init`. -/
inductive InitPc where
  | start
  | wait1
  | wait2
  | wait3
  | done
deriving DecidableEq, Repr

/-- The shared engine/storage state seen by concurrently running `init`
calls: whether `this.client` has been assigned, whether `hasInit` has been
set, and the `createIndex` calls the storage layer has received. -/
structure InitGState where
  clientSet : Bool
  hasInit : Bool
  indexLog : List String
deriving DecidableEq, Repr

/-- One atomic segment of `init`, run by a task sitting at `pc` against the
shared state (valid configuration, native strategy, no storage failures). -/
def initStep (g : InitGState) (pc : InitPc) : InitGState × InitPc :=
  match pc with
  | InitPc.start =>
    if g.clientSet then (g, InitPc.done)
    else ({ g with clientSet := true, indexLog := g.indexLog ++ ["session_id_idx"] },
      InitPc.wait1)
  | InitPc.wait1 =>
    ({ g with indexLog := g.indexLog ++ ["session_id_expires_idx"] }, InitPc.wait2)
  | InitPc.wait2 =>
    ({ g with indexLog := g.indexLog ++ ["updated_at_ttl_idx"] }, InitPc.wait3)
  | InitPc.wait3 => ({ g with hasInit := true }, InitPc.done)
  | InitPc.done => (g, InitPc.done)

/-- The event loop picks any task and runs its next atomic segment. -/
inductive SysStep : InitGState × List InitPc → InitGState × List InitPc → Prop where
  | mk (g : InitGState) (l₁ l₂ : List InitPc) (pc : InitPc) :
      SysStep (g, l₁ ++ pc :: l₂) ((initStep g pc).1, l₁ ++ (initStep g pc).2 :: l₂)

/-- Shared state before any task has run. -/
def initG : InitGState := { clientSet := false, hasInit := false, indexLog := [] }

/-- States reachable by interleaving `n` concurrent tasks, each calling
`init` on the same freshly constructed engine. -/
def InitReach (n : Nat) (s : InitGState × List InitPc) : Prop :=
  Relation.ReflTransGen SysStep (initG, List.replicate n InitPc.start) s

/-- Number of tasks in `pcs` sitting at program counter `w`. -/
def wcount (w : InitPc) : List InitPc → Nat
  | [] => 0
  | p :: rest => (if p = w then 1 else 0) + wcount w rest

/-- Invariant of the interleaved-initialization system: before the client is
assigned nothing has happened; afterwards at most one task is inside index
creation and the index log is the prefix of the three index names determined
by that task's suspension point (the whole list once no task is inside). -/
def InitInv (g : InitGState) (pcs : List InitPc) : Prop :=
  (g.clientSet = false →
    g.indexLog = [] ∧ g.hasInit = false ∧ ∀ pc ∈ pcs, pc = InitPc.start) ∧
  (g.clientSet = true →
    wcount InitPc.wait1 pcs + wcount InitPc.wait2 pcs + wcount InitPc.wait3 pcs ≤ 1 ∧
    (0 < wcount InitPc.wait1 pcs → g.indexLog = ["session_id_idx"]) ∧
    (0 < wcount InitPc.wait2 pcs →
      g.indexLog = ["session_id_idx", "session_id_expires_idx"]) ∧
    (0 < wcount InitPc.wait3 pcs →
      g.indexLog = ["session_id_idx", "session_id_expires_idx", "updated_at_ttl_idx"]) ∧
    (wcount InitPc.wait1 pcs + wcount InitPc.wait2 pcs + wcount InitPc.wait3 pcs = 0 →
      g.indexLog = ["session_id_idx", "session_id_expires_idx", "updated_at_ttl_idx"]))

theorem wcount_append (w : InitPc) (l₁ l₂ : List InitPc) :
    wcount w (l₁ ++ l₂) = wcount w l₁ + wcount w l₂ := by
  induction l₁ with
  | nil => simp [wcount]
  | cons x xs ih => simp [wcount, ih]; omega

theorem wcount_start_eq_zero {l : List InitPc} (h : ∀ p ∈ l, p = InitPc.start)
    {w : InitPc} (hw : ¬ w = InitPc.start) : wcount w l = 0 := by
  induction l with
  | nil => rfl
  | cons x xs ih =>
    have hx : x = InitPc.start := h x (List.mem_cons_self _ _)
    have hxs : ∀ p ∈ xs, p = InitPc.start := fun p hp => h p (List.mem_cons_of_mem _ hp)
    simp only [wcount, ih hxs, hx]
    rw [if_neg (fun hh => hw hh.symm)]

theorem initInv_initial (n : Nat) : InitInv initG (List.replicate n InitPc.start) := by
  constructor
  · intro _
    exact ⟨rfl, rfl, fun pc hpc => List.eq_of_mem_replicate hpc⟩
  · intro h
    simp [initG] at h

theorem initInv_step {s t : InitGState × List InitPc} (hst : SysStep s t)
    (hInv : InitInv s.1 s.2) : InitInv t.1 t.2 := by
  cases hst with
  | mk g l₁ l₂ pc =>
    replace hInv : InitInv g (l₁ ++ pc :: l₂) := hInv
    obtain ⟨hF, hT⟩ := hInv
    show InitInv (initStep g pc).1 (l₁ ++ (initStep g pc).2 :: l₂)
    cases pc with
    | done => exact ⟨hF, hT⟩
    | start =>
      by_cases hc : g.clientSet = true
      · rw [show initStep g InitPc.start = (g, InitPc.done) from by simp [initStep, hc]]
        obtain ⟨hle, h1, h2, h3, h0⟩ := hT hc
        refine ⟨?_, fun _ => ?_⟩
        · intro hcf; rw [hc] at hcf; cases hcf
        · simp only [wcount_append, wcount] at hle h1 h2 h3 h0 ⊢
          simp at hle h1 h2 h3 h0 ⊢
          exact ⟨hle, h1, h2, h3, h0⟩
      · have hc2 : g.clientSet = false := by revert hc; cases g.clientSet <;> simp
        obtain ⟨hlog, hhi, hall⟩ := hF hc2
        rw [show initStep g InitPc.start =
          ({ g with clientSet := true, indexLog := g.indexLog ++ ["session_id_idx"] },
            InitPc.wait1) from by simp [initStep, hc2]]
        have hl1 : ∀ p ∈ l₁, p = InitPc.start :=
          fun p hp => hall p (List.mem_append_left _ hp)
        have hl2 : ∀ p ∈ l₂, p = InitPc.start :=
          fun p hp => hall p (List.mem_append_right _ (List.mem_cons_of_mem _ hp))
        have z11 := @wcount_start_eq_zero l₁ hl1 InitPc.wait1 (by decide)
        have z12 := @wcount_start_eq_zero l₁ hl1 InitPc.wait2 (by decide)
        have z13 := @wcount_start_eq_zero l₁ hl1 InitPc.wait3 (by decide)
        have z21 := @wcount_start_eq_zero l₂ hl2 InitPc.wait1 (by decide)
        have z22 := @wcount_start_eq_zero l₂ hl2 InitPc.wait2 (by decide)
        have z23 := @wcount_start_eq_zero l₂ hl2 InitPc.wait3 (by decide)
        refine ⟨?_, fun _ => ?_⟩
        · intro hcf; cases hcf
        · simp only [wcount_append, wcount]
          simp [z11, z12, z13, z21, z22, z23, hlog]
    | wait1 =>
      have hc : g.clientSet = true := by
        cases hcb : g.clientSet
        · exact absurd ((hF hcb).2.2 InitPc.wait1
            (List.mem_append_right _ (List.mem_cons_self _ _))) (by decide)
        · rfl
      obtain ⟨hle, h1, h2, h3, h0⟩ := hT hc
      simp only [wcount_append, wcount] at hle h1
      simp at hle h1
      have hlog : g.indexLog = ["session_id_idx"] := h1
      refine ⟨?_, fun _ => ?_⟩
      · intro hcf
        rw [show (initStep g InitPc.wait1).1.clientSet = g.clientSet from rfl, hc] at hcf
        cases hcf
      · simp only [initStep]
        simp only [wcount_append, wcount]
        simp [hlog]
        omega
    | wait2 =>
      have hc : g.clientSet = true := by
        cases hcb : g.clientSet
        · exact absurd ((hF hcb).2.2 InitPc.wait2
            (List.mem_append_right _ (List.mem_cons_self _ _))) (by decide)
        · rfl
      obtain ⟨hle, h1, h2, h3, h0⟩ := hT hc
      simp only [wcount_append, wcount] at hle h2
      simp at hle h2
      have hlog : g.indexLog = ["session_id_idx", "session_id_expires_idx"] := h2
      refine ⟨?_, fun _ => ?_⟩
      · intro hcf
        rw [show (initStep g InitPc.wait2).1.clientSet = g.clientSet from rfl, hc] at hcf
        cases hcf
      · simp only [initStep]
        simp only [wcount_append, wcount]
        simp [hlog]
        omega
    | wait3 =>
      have hc : g.clientSet = true := by
        cases hcb : g.clientSet
        · exact absurd ((hF hcb).2.2 InitPc.wait3
            (List.mem_append_right _ (List.mem_cons_self _ _))) (by decide)
        · rfl
      obtain ⟨hle, h1, h2, h3, h0⟩ := hT hc
      simp only [wcount_append, wcount] at hle h3
      simp at hle h3
      have hlog : g.indexLog =
          ["session_id_idx", "session_id_expires_idx", "updated_at_ttl_idx"] := h3
      refine ⟨?_, fun _ => ?_⟩
      · intro hcf
        rw [show (initStep g InitPc.wait3).1.clientSet = g.clientSet from rfl, hc] at hcf
        cases hcf
      · simp only [initStep]
        simp only [wcount_append, wcount]
        simp [hlog]
        omega

theorem initInv_reach {n : Nat} {s : InitGState × List InitPc} (h : InitReach n s) :
    InitInv s.1 s.2 := by
  induction h with
  | refl => exact initInv_initial n
  | tail _ hstep ih => exact initInv_step hstep ih

theorem indexLog_cases {g : InitGState} {pcs : List InitPc} (hInv : InitInv g pcs) :
    g.indexLog = [] ∨ g.indexLog = ["session_id_idx"] ∨
    g.indexLog = ["session_id_idx", "session_id_expires_idx"] ∨
    g.indexLog = ["session_id_idx", "session_id_expires_idx", "updated_at_ttl_idx"] := by
  obtain ⟨hF, hT⟩ := hInv
  cases hcb : g.clientSet
  · exact Or.inl (hF hcb).1
  · obtain ⟨hle, h1, h2, h3, h0⟩ := hT hcb
    rcases Nat.eq_zero_or_pos (wcount InitPc.wait1 pcs) with z1 | p1
    · rcases Nat.eq_zero_or_pos (wcount InitPc.wait2 pcs) with z2 | p2
      · rcases Nat.eq_zero_or_pos (wcount InitPc.wait3 pcs) with z3 | p3
        · exact Or.inr (Or.inr (Or.inr (h0 (by omega))))
        · exact Or.inr (Or.inr (Or.inr (h3 p3)))
      · exact Or.inr (Or.inr (Or.inl (h2 p2)))
    · exact Or.inr (Or.inl (h1 p1))

/-!
### Helper lemmas about `init` and the collection primitives
-/

variable {α : Type}

/-- Once the client is assigned, `init` returns immediately and performs no
storage operation. -/
theorem init_noop (idxFail : String → Bool) (st : StoreState α)
    (h : st.engine.client.isSome = true) : init idxFail st = (st, none) := by
  simp [init, h]

/-- A run of `init` that did not throw leaves the client assigned. -/
theorem init_ok_client {idxFail : String → Bool} {st st1 : StoreState α}
    (h : init idxFail st = (st1, none)) : st1.engine.client.isSome = true := by
  by_cases h0 : st.engine.client.isSome = true
  · rw [init_noop idxFail st h0] at h
    injection h with h1 _
    rw [← h1]
    exact h0
  · have h0f : st.engine.client.isSome = false := by
      revert h0; cases st.engine.client.isSome <;> simp
    by_cases h1 : st.engine.config.client.isNone = true
    · simp [init, h0f, h1] at h
    · have h1f : st.engine.config.client.isNone = false := by
        revert h1; cases st.engine.config.client.isNone <;> simp
      by_cases h2 : st.engine.config.dbName = ""
      · simp [init, h0f, h1f, h2] at h
      · by_cases h3 : st.engine.config.collection = ""
        · simp [init, h0f, h1f, h2, h3] at h
        · by_cases hf1 : idxFail "session_id_idx" = true
          · simp [init, createIndex, h0f, h1f, h2, h3, hf1] at h
          · have hf1f : idxFail "session_id_idx" = false := by
              revert hf1; cases idxFail "session_id_idx" <;> simp
            by_cases hf2 : idxFail "session_id_expires_idx" = true
            · simp [init, createIndex, h0f, h1f, h2, h3, hf1f, hf2] at h
            · have hf2f : idxFail "session_id_expires_idx" = false := by
                revert hf2; cases idxFail "session_id_expires_idx" <;> simp
              have hcs : st1.engine.client = st.engine.config.client := by
                by_cases hnat : st.engine.config.cleanupStrategy = none ∨
                    st.engine.config.cleanupStrategy =
                      some MongoSessionCleanupStrategy.native
                · by_cases hf3 : idxFail "updated_at_ttl_idx" = true
                  · simp [init, createIndex, h0f, h1f, h2, h3, hf1f, hf2f, hnat, hf3] at h
                  · have hf3f : idxFail "updated_at_ttl_idx" = false := by
                      revert hf3; cases idxFail "updated_at_ttl_idx" <;> simp
                    simp [init, createIndex, h0f, h1f, h2, h3, hf1f, hf2f, hnat, hf3f] at h
                    rw [← h]
                · simp [init, createIndex, h0f, h1f, h2, h3, hf1f, hf2f, hnat] at h
                  rw [← h]
              rw [hcs]
              revert h1f
              cases st.engine.config.client <;> simp

/-- `findOne` returns a live record with the looked-up key when there is one
and the stored keys are pairwise distinct. -/
theorem find?_live {l : List (SessionData α)} {r : SessionData α} {key : String}
    {now : Nat} (hU : (l.map SessionData.sessionId).Nodup) (hr : r ∈ l)
    (hsid : r.sessionId = key) (hlive : now < r.expiresMs) :
    l.find? (fun x => decide (now < x.expiresMs) && (x.sessionId == key)) = some r := by
  induction l with
  | nil => cases hr
  | cons x rest ih =>
    simp only [List.map_cons, List.nodup_cons] at hU
    obtain ⟨hx, hUr⟩ := hU
    rcases List.mem_cons.mp hr with rfl | hr2
    · rw [List.find?_cons_of_pos]
      simp [hsid, hlive]
    · have hxkey : ¬ x.sessionId = key := by
        intro hk
        apply hx
        rw [hk, ← hsid]
        exact List.mem_map_of_mem _ hr2
      rw [List.find?_cons_of_neg]
      · exact ih hUr hr2
      · simp [hxkey]

/-- The document written by an upsert is in the resulting collection. -/
theorem mem_updateOneUpsert_self (key : String) (d : SessionData α)
    (l : List (SessionData α)) : d ∈ updateOneUpsert key d l := by
  induction l with
  | nil => simp [updateOneUpsert]
  | cons x rest ih =>
    simp only [updateOneUpsert]
    split
    · exact List.mem_cons_self _ _
    · exact List.mem_cons_of_mem _ ih

/-- A document of the upserted collection is the new document or an old one. -/
theorem mem_updateOneUpsert {key : String} {d r : SessionData α}
    {l : List (SessionData α)} (h : r ∈ updateOneUpsert key d l) : r = d ∨ r ∈ l := by
  induction l with
  | nil => simpa [updateOneUpsert] using h
  | cons x rest ih =>
    simp only [updateOneUpsert] at h
    split at h
    · rcases List.mem_cons.mp h with rfl | h2
      · exact Or.inl rfl
      · exact Or.inr (List.mem_cons_of_mem _ h2)
    · rcases List.mem_cons.mp h with rfl | h2
      · exact Or.inr (List.mem_cons_self _ _)
      · rcases ih h2 with h3 | h3
        · exact Or.inl h3
        · exact Or.inr (List.mem_cons_of_mem _ h3)

/-- Upserting under the key invariant keeps the stored keys pairwise
distinct. -/
theorem nodup_updateOneUpsert {key : String} {d : SessionData α}
    {l : List (SessionData α)} (hd : d.sessionId = key)
    (hU : (l.map SessionData.sessionId).Nodup) :
    ((updateOneUpsert key d l).map SessionData.sessionId).Nodup := by
  induction l with
  | nil => simp [updateOneUpsert]
  | cons x rest ih =>
    simp only [List.map_cons, List.nodup_cons] at hU
    obtain ⟨hx, hUr⟩ := hU
    simp only [updateOneUpsert]
    split
    · next hxk =>
      simp only [List.map_cons, List.nodup_cons]
      refine ⟨?_, hUr⟩
      rw [hd, ← (show x.sessionId = key by simpa using hxk)]
      exact hx
    · next hxk =>
      simp only [List.map_cons, List.nodup_cons]
      refine ⟨?_, ih hUr⟩
      intro hmem
      obtain ⟨r, hrmem, hrsid⟩ := List.mem_map.mp hmem
      rcases mem_updateOneUpsert hrmem with rfl | h2
      · apply (show ¬ x.sessionId = key by simpa using hxk)
        rw [← hrsid, hd]
      · apply hx
        rw [← hrsid]
        exact List.mem_map_of_mem _ h2

/-- Under the key invariant, the only document of the upserted collection
carrying the upserted key is the new document. -/
theorem eq_of_mem_updateOneUpsert {key : String} {d r : SessionData α}
    {l : List (SessionData α)} (hd : d.sessionId = key)
    (hU : (l.map SessionData.sessionId).Nodup) (hr : r ∈ updateOneUpsert key d l)
    (hrk : r.sessionId = key) : r = d := by
  induction l with
  | nil => simpa [updateOneUpsert] using hr
  | cons x rest ih =>
    simp only [List.map_cons, List.nodup_cons] at hU
    obtain ⟨hx, hUr⟩ := hU
    simp only [updateOneUpsert] at hr
    split at hr
    · next hxk =>
      rcases List.mem_cons.mp hr with rfl | h2
      · rfl
      · exfalso
        apply hx
        rw [(show x.sessionId = key by simpa using hxk), ← hrk]
        exact List.mem_map_of_mem _ h2
    · next hxk =>
      rcases List.mem_cons.mp hr with rfl | h2
      · exact absurd hrk (by simpa using hxk)
      · exact ih hUr h2

/-- Under the key invariant, filtering the upserted collection by the
upserted key yields exactly the new document. -/
theorem filter_updateOneUpsert {key : String} {d : SessionData α}
    {l : List (SessionData α)} (hd : d.sessionId = key)
    (hU : (l.map SessionData.sessionId).Nodup) :
    (updateOneUpsert key d l).filter (fun r => r.sessionId == key) = [d] := by
  induction l with
  | nil => simp [updateOneUpsert, List.filter, hd]
  | cons x rest ih =>
    simp only [List.map_cons, List.nodup_cons] at hU
    obtain ⟨hx, hUr⟩ := hU
    simp only [updateOneUpsert]
    split
    · next hxk =>
      have hxkey : x.sessionId = key := by simpa using hxk
      rw [List.filter_cons_of_pos (by simp [hd]), show rest.filter
          (fun r => r.sessionId == key) = [] from ?_]
      rw [List.filter_eq_nil_iff]
      intro a ha
      simp only [beq_iff_eq]
      intro hak
      apply hx
      rw [hxkey, ← hak]
      exact List.mem_map_of_mem _ ha
    · next hxk =>
      rw [List.filter_cons_of_neg (by simpa using hxk)]
      exact ih hUr

/-- Two documents of a key-distinct collection with the same key are equal. -/
theorem eq_of_sid_nodup {l : List (SessionData α)} {r r2 : SessionData α}
    (hU : (l.map SessionData.sessionId).Nodup) (h1 : r ∈ l) (h2 : r2 ∈ l)
    (hs : r.sessionId = r2.sessionId) : r = r2 :=
  List.inj_on_of_nodup_map hU h1 h2 hs

/-- Counting a predicate and its negation partitions a list. -/
theorem countP_not_add (p : α → Bool) (l : List α) :
    l.countP p + l.countP (fun a => !p a) = l.length := by
  induction l with
  | nil => rfl
  | cons x xs ih =>
    by_cases hx : p x = true <;>
      simp [List.countP_cons, hx, ← ih] <;> omega

/-- Evaluation of `get` on an initialized engine. -/
theorem get_eval (idxFail : String → Bool) (st : StoreState α) (sid : String) (now : Nat)
    (hcl : st.engine.client.isSome = true) :
    get idxFail st sid now = (st, Except.ok ((st.records.find?
      (fun r => decide (now < r.expiresMs) && (r.sessionId == getSid st.engine sid))).map
        (fun r => r.data))) := by
  simp only [get, init_noop idxFail st hcl]
  cases hfind : st.records.find?
      (fun r => decide (now < r.expiresMs) && (r.sessionId == getSid st.engine sid)) <;>
    simp [hfind]

/-- The document `set(sid, payload)` writes at clock reading `now` on engine
state `st`. -/
def setDoc (st : StoreState α) (sid : String) (payload : α) (now : Nat) : SessionData α :=
  { sessionId := getSid st.engine sid
    data := payload
    expiresMs := now + st.engine.config.ttlMs
    updatedAt := now }

/-- Evaluation of `set` on an initialized engine. -/
theorem set_eval (idxFail : String → Bool) (st : StoreState α) (sid : String) (payload : α)
    (now : Nat) (hcl : st.engine.client.isSome = true) :
    set idxFail st sid payload now =
      ({ st with records := (updateOneUpsert (getSid st.engine sid)
          (setDoc st sid payload now) st.records) },
        Except.ok ()) := by
  simp [set, setDoc, init_noop idxFail st hcl]

/-- A sample configuration used to instantiate hypothesized theorems. -/
def sampleParams : MongoStoreParams :=
  { client := some ()
    dbName := "express-session"
    collection := "sessions"
    cleanupStrategy := none
    ttlMs := 10000
    prefixStr := none }

/-- A sample initialized store state with one live (at `now = 50`) and one
expired record. -/
def sampleState : StoreState Nat :=
  { engine :=
      { hasInit := true
        config := sampleParams
        client := some ()
        collectionSet := true
        prefixStr := "" }
    records := [{ sessionId := "abc", data := 42, expiresMs := 100, updatedAt := 0 },
                { sessionId := "zzz", data := 7, expiresMs := 10, updatedAt := 0 }]
    indexLog := ["session_id_idx", "session_id_expires_idx", "updated_at_ttl_idx"] }

/-- A sample configuration with prefix `p:`. -/
def sampleParamsP : MongoStoreParams :=
  { client := some ()
    dbName := "express-session"
    collection := "sessions"
    cleanupStrategy := none
    ttlMs := 10000
    prefixStr := some "p:" }

/-- A sample configuration with no client handle. -/
def sampleParamsBad : MongoStoreParams :=
  { client := none
    dbName := "express-session"
    collection := "sessions"
    cleanupStrategy := none
    ttlMs := 10000
    prefixStr := none }

/-- C8: for every id and payload, `touch(id, payload)` is equivalent to
`set(id, payload)`: the same resulting store state and the same result, on
every starting state; there are no separate touch-only semantics. -/
theorem C8_touch_eq_set (idxFail : String → Bool) (st : StoreState α) (sid : String)
    (payload : α) (now : Nat) :
    touch idxFail st sid payload now = set idxFail st sid payload now := by
  cases hi : init idxFail st with
  | mk st1 r =>
    cases r with
    | some e => simp [touch, set, hi]
    | none =>
      have hcl := init_ok_client hi
      simp [touch, set, hi, init_noop idxFail st1 hcl]

/-- C9: `clear()` removes every record regardless of expiry state, and
immediately afterwards `length()` returns 0 and `all()` returns the empty
sequence (at any clock reading). -/
theorem C9_clear_removes_all (idxFail : String → Bool) (st : StoreState α)
    (now now2 : Nat) (hcl : st.engine.client.isSome = true) :
    (clear idxFail st).2 = Except.ok () ∧
    (clear idxFail st).1.records = [] ∧
    (length idxFail (clear idxFail st).1 now).2 = Except.ok 0 ∧
    (all idxFail (clear idxFail st).1 now2).2 = Except.ok [] := by
  have h1 : clear idxFail st = ({ st with records := [] }, Except.ok ()) := by
    simp [clear, init_noop idxFail st hcl]
  rw [h1]
  refine ⟨rfl, rfl, ?_, ?_⟩
  · simp [length, init, hcl]
  · simp [all, init, hcl]

/-- C9 witness: the theorem applied to the sample state. -/
theorem C9_clear_removes_all_witness :
    (sampleState.engine.client.isSome = true) ∧
    ((clear (fun _ => false) sampleState).2 = Except.ok () ∧
     (clear (fun _ => false) sampleState).1.records = [] ∧
     (length (fun _ => false) (clear (fun _ => false) sampleState).1 50).2 = Except.ok 0 ∧
     (all (fun _ => false) (clear (fun _ => false) sampleState).1 50).2 = Except.ok []) :=
  ⟨by decide, C9_clear_removes_all (fun _ => false) sampleState 50 50 (by decide)⟩

/-- C7: at any instant, `length()` and `all()` agree on liveness: `all`
returns exactly the payloads of the records whose expiry is strictly greater
than now, `length` returns their number, and the expired-but-unswept records
(the complement) are surfaced by neither. -/
theorem C7_length_all_agree (idxFail : String → Bool) (st : StoreState α) (now : Nat)
    (hcl : st.engine.client.isSome = true) :
    ∃ l : List α,
      (all idxFail st now).2 = Except.ok l ∧
      (length idxFail st now).2 = Except.ok l.length ∧
      l = (st.records.filter (fun r => decide (now < r.expiresMs))).map (fun r => r.data) ∧
      l.length = (st.records.filter (fun r => decide (now < r.expiresMs))).length ∧
      l.length + (st.records.filter (fun r => !decide (now < r.expiresMs))).length =
        st.records.length := by
  refine ⟨(st.records.filter (fun r => decide (now < r.expiresMs))).map (fun r => r.data),
    ?_, ?_, rfl, by simp, ?_⟩
  · simp [all, init_noop idxFail st hcl]
  · simp [length, init_noop idxFail st hcl, List.length_map, List.countP_eq_length_filter]
  · simp only [List.length_map]
    rw [← List.countP_eq_length_filter, ← List.countP_eq_length_filter]
    exact countP_not_add _ _

/-- C7 witness: the sample state has one live and one expired record at
`now = 50`. -/
theorem C7_length_all_agree_witness :
    (sampleState.engine.client.isSome = true) ∧
    (∃ l : List Nat,
      (all (fun _ => false) sampleState 50).2 = Except.ok l ∧
      (length (fun _ => false) sampleState 50).2 = Except.ok l.length ∧
      l = (sampleState.records.filter (fun r => decide (50 < r.expiresMs))).map
        (fun r => r.data) ∧
      l.length = (sampleState.records.filter (fun r => decide (50 < r.expiresMs))).length ∧
      l.length + (sampleState.records.filter (fun r => !decide (50 < r.expiresMs))).length =
        sampleState.records.length) :=
  ⟨by decide, C7_length_all_agree (fun _ => false) sampleState 50 (by decide)⟩

/-- C2: on an initialized engine with pairwise-distinct stored keys, `get`
never fails; it returns the stored payload when a record keyed
`prefix + id` exists whose expiry is strictly greater than now, and returns
null exactly when no such live record exists; consequently, for a record
written by `set` at `writeTime`, `get` returns the payload while
`now < writeTime + ttlMs` and null once `writeTime + ttlMs ≤ now`. -/
theorem C2_get_live_boundary (idxFail : String → Bool) (st : StoreState α) (sid : String)
    (now : Nat) (hcl : st.engine.client.isSome = true)
    (hU : (st.records.map SessionData.sessionId).Nodup) :
    (∃ v, (get idxFail st sid now).2 = Except.ok v) ∧
    (∀ r ∈ st.records, r.sessionId = getSid st.engine sid → now < r.expiresMs →
      (get idxFail st sid now).2 = Except.ok (some r.data)) ∧
    ((get idxFail st sid now).2 = Except.ok none ↔
      ¬ ∃ r ∈ st.records, r.sessionId = getSid st.engine sid ∧ now < r.expiresMs) ∧
    (∀ (payload : α) (writeTime readTime : Nat),
      (readTime < writeTime + st.engine.config.ttlMs →
        (get idxFail (set idxFail st sid payload writeTime).1 sid readTime).2 =
          Except.ok (some payload)) ∧
      (writeTime + st.engine.config.ttlMs ≤ readTime →
        (get idxFail (set idxFail st sid payload writeTime).1 sid readTime).2 =
          Except.ok none)) := by
  have hev := get_eval idxFail st sid now hcl
  refine ⟨⟨_, by rw [hev]⟩, ?_, ?_, ?_⟩
  · intro r hr hs hl
    rw [hev, find?_live hU hr hs hl]
    rfl
  · rw [hev]
    constructor
    · intro h hex
      obtain ⟨r, hr, hs, hl⟩ := hex
      rw [find?_live hU hr hs hl] at h
      simp at h
    · intro hnone
      have hfind : st.records.find?
          (fun x => decide (now < x.expiresMs) && (x.sessionId == getSid st.engine sid)) =
            none := by
        rw [List.find?_eq_none]
        intro x hx hpx
        simp only [Bool.and_eq_true, decide_eq_true_eq, beq_iff_eq] at hpx
        exact hnone ⟨x, hx, hpx.2, hpx.1⟩
      rw [hfind]
      rfl
  · intro payload writeTime readTime
    have hpost : (set idxFail st sid payload writeTime).1 =
        { st with records := (updateOneUpsert (getSid st.engine sid)
            (setDoc st sid payload writeTime) st.records) } := by
      rw [set_eval idxFail st sid payload writeTime hcl]
    have hU2 : (((set idxFail st sid payload writeTime).1).records.map
        SessionData.sessionId).Nodup := by
      rw [hpost]
      exact nodup_updateOneUpsert rfl hU
    have hcl2 : ((set idxFail st sid payload writeTime).1).engine.client.isSome = true := by
      rw [hpost]; exact hcl
    have hsid2 : getSid ((set idxFail st sid payload writeTime).1).engine sid =
        getSid st.engine sid := by rw [hpost]
    have hev2 := get_eval idxFail (set idxFail st sid payload writeTime).1 sid readTime hcl2
    constructor
    · intro hlt
      rw [hev2]
      have hmem : setDoc st sid payload writeTime ∈
          ((set idxFail st sid payload writeTime).1).records := by
        rw [hpost]
        exact mem_updateOneUpsert_self _ _ _
      rw [find?_live hU2 hmem (by rw [hsid2]; rfl) (by exact hlt)]
      rfl
    · intro hge
      rw [hev2]
      simp only [Except.ok.injEq, Option.map_eq_none']
      rw [List.find?_eq_none]
      intro x hx hpx
      simp only [Bool.and_eq_true, decide_eq_true_eq, beq_iff_eq] at hpx
      rw [hsid2] at hpx
      rw [hpost] at hx
      have hxd := eq_of_mem_updateOneUpsert
        (show (setDoc st sid payload writeTime).sessionId = getSid st.engine sid from rfl)
        hU hx hpx.2
      rw [hxd] at hpx
      have h5 : readTime < writeTime + st.engine.config.ttlMs := by
        simpa [setDoc] using hpx.1
      omega

/-- C2 witness: the sample state read at `now = 50` (live record) together
with the set-then-get boundary at the sample ttl of 10000. -/
theorem C2_get_live_boundary_witness :
    (sampleState.engine.client.isSome = true ∧
      (sampleState.records.map SessionData.sessionId).Nodup) ∧
    ((∃ v, (get (fun _ => false) sampleState "abc" 50).2 = Except.ok v) ∧
    (∀ r ∈ sampleState.records, r.sessionId = getSid sampleState.engine "abc" →
      50 < r.expiresMs →
      (get (fun _ => false) sampleState "abc" 50).2 = Except.ok (some r.data)) ∧
    ((get (fun _ => false) sampleState "abc" 50).2 = Except.ok none ↔
      ¬ ∃ r ∈ sampleState.records, r.sessionId = getSid sampleState.engine "abc" ∧
        50 < r.expiresMs) ∧
    (∀ (payload : Nat) (writeTime readTime : Nat),
      (readTime < writeTime + sampleState.engine.config.ttlMs →
        (get (fun _ => false)
          (set (fun _ => false) sampleState "abc" payload writeTime).1 "abc" readTime).2 =
          Except.ok (some payload)) ∧
      (writeTime + sampleState.engine.config.ttlMs ≤ readTime →
        (get (fun _ => false)
          (set (fun _ => false) sampleState "abc" payload writeTime).1 "abc" readTime).2 =
          Except.ok none))) :=
  ⟨⟨by decide, by decide⟩,
    C2_get_live_boundary (fun _ => false) sampleState "abc" 50 (by decide) (by decide)⟩

/-- C3: `removeExpiredSessions()` deletes exactly the records whose expiry
is strictly less than now (a record kept iff it was stored and is not
strictly expired); a record whose expiry equals now survives the sweep even
though at the same instant `get` reports it dead (null) and the strict
`> now` liveness filter used by `all` and `length` excludes it. -/
theorem C3_sweep_strict_boundary (idxFail : String → Bool) (st : StoreState α)
    (sid : String) (now : Nat) (hcl : st.engine.client.isSome = true)
    (hU : (st.records.map SessionData.sessionId).Nodup) :
    ((removeExpiredSessions idxFail st now).2 = Except.ok ()) ∧
    (∀ r : SessionData α, r ∈ (removeExpiredSessions idxFail st now).1.records ↔
      r ∈ st.records ∧ ¬ r.expiresMs < now) ∧
    ((all idxFail st now).2 = Except.ok ((st.records.filter
        (fun r => decide (now < r.expiresMs))).map (fun r => r.data))) ∧
    ((length idxFail st now).2 = Except.ok ((st.records.filter
        (fun r => decide (now < r.expiresMs))).length)) ∧
    (∀ r ∈ st.records, r.expiresMs = now →
      r ∈ (removeExpiredSessions idxFail st now).1.records ∧
      r ∉ st.records.filter (fun x => decide (now < x.expiresMs)) ∧
      (r.sessionId = getSid st.engine sid →
        (get idxFail st sid now).2 = Except.ok none)) := by
  have hrem : removeExpiredSessions idxFail st now =
      ({ st with records := (st.records.filter
        (fun r => !(decide (r.expiresMs < now)))) }, Except.ok ()) := by
    simp [removeExpiredSessions, init_noop idxFail st hcl]
  refine ⟨by rw [hrem], ?_, ?_, ?_, ?_⟩
  · intro r
    rw [hrem]
    simp [List.mem_filter]
  · simp [all, init_noop idxFail st hcl]
  · simp [length, init_noop idxFail st hcl, List.countP_eq_length_filter]
  · intro r hr heq
    refine ⟨?_, ?_, ?_⟩
    · rw [hrem]
      simp [List.mem_filter, hr, heq]
    · simp [List.mem_filter, heq]
    · intro hsid
      rw [get_eval idxFail st sid now hcl]
      simp only [Except.ok.injEq, Option.map_eq_none']
      rw [List.find?_eq_none]
      intro x hx hpx
      simp only [Bool.and_eq_true, decide_eq_true_eq, beq_iff_eq] at hpx
      have hxr : x = r := eq_of_sid_nodup hU hx hr (by rw [hpx.2, hsid])
      rw [hxr, heq] at hpx
      exact absurd hpx.1 (lt_irrefl now)

/-- C3 witness: the sample record `zzz` expires exactly at `now = 10`: the
sweep keeps it while `get` returns null. -/
theorem C3_sweep_strict_boundary_witness :
    (sampleState.engine.client.isSome = true ∧
      (sampleState.records.map SessionData.sessionId).Nodup) ∧
    (((removeExpiredSessions (fun _ => false) sampleState 10).2 = Except.ok ()) ∧
    (∀ r : SessionData Nat,
      r ∈ (removeExpiredSessions (fun _ => false) sampleState 10).1.records ↔
      r ∈ sampleState.records ∧ ¬ r.expiresMs < 10) ∧
    ((all (fun _ => false) sampleState 10).2 = Except.ok ((sampleState.records.filter
        (fun r => decide (10 < r.expiresMs))).map (fun r => r.data))) ∧
    ((length (fun _ => false) sampleState 10).2 = Except.ok ((sampleState.records.filter
        (fun r => decide (10 < r.expiresMs))).length)) ∧
    (∀ r ∈ sampleState.records, r.expiresMs = 10 →
      r ∈ (removeExpiredSessions (fun _ => false) sampleState 10).1.records ∧
      r ∉ sampleState.records.filter (fun x => decide (10 < x.expiresMs)) ∧
      (r.sessionId = getSid sampleState.engine "zzz" →
        (get (fun _ => false) sampleState "zzz" 10).2 = Except.ok none))) :=
  ⟨⟨by decide, by decide⟩,
    C3_sweep_strict_boundary (fun _ => false) sampleState "zzz" 10 (by decide) (by decide)⟩

/-- C4: on an initialized engine with pairwise-distinct keys, `set` upserts:
it succeeds, leaves the engine fields unchanged, and afterwards exactly one
record carries the key `prefix + id`, namely the document with the payload,
expiry `now + ttlMs` and `updatedAt = now`; the keys stay pairwise distinct,
and a second `set` for the same id again leaves exactly one record for that
key, holding the latest payload and the refreshed expiry. -/
theorem C4_set_upsert_exactly_one (idxFail : String → Bool) (st : StoreState α)
    (sid : String) (payload : α) (now : Nat) (hcl : st.engine.client.isSome = true)
    (hU : (st.records.map SessionData.sessionId).Nodup) :
    ((set idxFail st sid payload now).2 = Except.ok ()) ∧
    ((set idxFail st sid payload now).1.engine = st.engine) ∧
    ((setDoc st sid payload now).sessionId = getSid st.engine sid ∧
      (setDoc st sid payload now).data = payload ∧
      (setDoc st sid payload now).expiresMs = now + st.engine.config.ttlMs ∧
      (setDoc st sid payload now).updatedAt = now) ∧
    ((set idxFail st sid payload now).1.records.filter
        (fun r => r.sessionId == getSid st.engine sid) = [setDoc st sid payload now]) ∧
    (((set idxFail st sid payload now).1.records.map SessionData.sessionId).Nodup) ∧
    (∀ (payload2 : α) (now2 : Nat),
      (set idxFail (set idxFail st sid payload now).1 sid payload2 now2).1.records.filter
          (fun r => r.sessionId == getSid st.engine sid) =
        [setDoc st sid payload2 now2]) := by
  have hpost : (set idxFail st sid payload now).1 =
      { st with records := (updateOneUpsert (getSid st.engine sid)
          (setDoc st sid payload now) st.records) } := by
    rw [set_eval idxFail st sid payload now hcl]
  refine ⟨by rw [set_eval idxFail st sid payload now hcl], by rw [hpost],
    ⟨rfl, rfl, rfl, rfl⟩, ?_, ?_, ?_⟩
  · rw [hpost]
    exact filter_updateOneUpsert rfl hU
  · rw [hpost]
    exact nodup_updateOneUpsert rfl hU
  · intro payload2 now2
    rw [hpost]
    rw [set_eval idxFail ({ st with records := (updateOneUpsert (getSid st.engine sid)
          (setDoc st sid payload now) st.records) }) sid payload2 now2 hcl]
    exact filter_updateOneUpsert rfl (nodup_updateOneUpsert rfl hU)

/-- C4 witness: two successive writes of ids `abc` on the sample state. -/
theorem C4_set_upsert_exactly_one_witness :
    (sampleState.engine.client.isSome = true ∧
      (sampleState.records.map SessionData.sessionId).Nodup) ∧
    (((set (fun _ => false) sampleState "abc" 5 50).2 = Except.ok ()) ∧
    ((set (fun _ => false) sampleState "abc" 5 50).1.engine = sampleState.engine) ∧
    ((setDoc sampleState "abc" 5 50).sessionId = getSid sampleState.engine "abc" ∧
      (setDoc sampleState "abc" 5 50).data = 5 ∧
      (setDoc sampleState "abc" 5 50).expiresMs = 50 + sampleState.engine.config.ttlMs ∧
      (setDoc sampleState "abc" 5 50).updatedAt = 50) ∧
    ((set (fun _ => false) sampleState "abc" 5 50).1.records.filter
        (fun r => r.sessionId == getSid sampleState.engine "abc") =
      [setDoc sampleState "abc" 5 50]) ∧
    (((set (fun _ => false) sampleState "abc" 5 50).1.records.map
      SessionData.sessionId).Nodup) ∧
    (∀ (payload2 : Nat) (now2 : Nat),
      (set (fun _ => false) (set (fun _ => false) sampleState "abc" 5 50).1 "abc"
          payload2 now2).1.records.filter
          (fun r => r.sessionId == getSid sampleState.engine "abc") =
        [setDoc sampleState "abc" payload2 now2])) :=
  ⟨⟨by decide, by decide⟩,
    C4_set_upsert_exactly_one (fun _ => false) sampleState "abc" 5 50
      (by decide) (by decide)⟩

/-- Successful first-time initialization: with a valid configuration and no
storage failures, `init` succeeds, keeps the records, the configuration and
the prefix, and assigns the client. -/
theorem init_fresh (idxFail : String → Bool) (st : StoreState α)
    (h0 : st.engine.client = none) (hclient : st.engine.config.client.isSome = true)
    (hdb : ¬ st.engine.config.dbName = "") (hcoll : ¬ st.engine.config.collection = "")
    (hnf1 : idxFail "session_id_idx" = false)
    (hnf2 : idxFail "session_id_expires_idx" = false)
    (hnf3 : idxFail "updated_at_ttl_idx" = false) :
    (init idxFail st).2 = none ∧
      (init idxFail st).1.records = st.records ∧
      (init idxFail st).1.engine.config = st.engine.config ∧
      (init idxFail st).1.engine.prefixStr = st.engine.prefixStr ∧
      (init idxFail st).1.engine.client = st.engine.config.client := by
  have h0s : st.engine.client.isSome = false := by rw [h0]; rfl
  have h1f : st.engine.config.client.isNone = false := by
    revert hclient; cases st.engine.config.client <;> simp
  by_cases hnat : st.engine.config.cleanupStrategy = none ∨
      st.engine.config.cleanupStrategy = some MongoSessionCleanupStrategy.native
  · simp [init, createIndex, h0s, h1f, hdb, hcoll, hnf1, hnf2, hnf3, hnat]
  · simp [init, createIndex, h0s, h1f, hdb, hcoll, hnf1, hnf2, hnat]

/-- C5: key formatting is the pure function `prefix ++ rawId` with the prefix
defaulting to the empty string; on a fresh engine configured with prefix
`p:`, after `set(id, payload)` every stored record is keyed exactly
`p: ++ id`, `get(id)` returns the payload, a direct storage lookup for the
unprefixed `id` finds nothing, and the lookup for `p: ++ id` finds the
payload. -/
theorem C5_key_namespacing (cfg : MongoStoreParams) (id : String) (payload : α)
    (now : Nat) (hpre : cfg.prefixStr = some "p:")
    (hclient : cfg.client.isSome = true) (hdb : ¬ cfg.dbName = "")
    (hcoll : ¬ cfg.collection = "") (httl : 0 < cfg.ttlMs) :
    (∀ (e : MongoStoreBase) (s : String), getSid e s = e.prefixStr ++ s) ∧
    (∀ cfg2 : MongoStoreParams, cfg2.prefixStr = none →
      (mkMongoStoreBase cfg2).prefixStr = "") ∧
    (∀ r ∈ ((set (fun _ => false) (initialState α cfg) id payload now).1).records,
      r.sessionId = "p:" ++ id) ∧
    ((get (fun _ => false) (set (fun _ => false) (initialState α cfg) id payload now).1
        id now).2 = Except.ok (some payload)) ∧
    (((set (fun _ => false) (initialState α cfg) id payload now).1).records.find?
      (fun r => r.sessionId == id) = none) ∧
    ((((set (fun _ => false) (initialState α cfg) id payload now).1).records.find?
      (fun r => r.sessionId == ("p:" ++ id))).map (fun r => r.data) = some payload) := by
  obtain ⟨h2i, hrec, hconf, hpref, hcli⟩ :=
    init_fresh (fun _ => false) (initialState α cfg) rfl hclient hdb hcoll rfl rfl rfl
  cases hI : init (fun _ => false) (initialState α cfg) with
  | mk st1 r =>
  rw [hI] at h2i hrec hconf hpref hcli
  obtain rfl : r = none := h2i
  have hrec2 : st1.records = [] := hrec
  have hconf2 : st1.engine.config = cfg := hconf
  have hpref2 : st1.engine.prefixStr = cfg.prefixStr.getD "" := hpref
  have hcli2 : st1.engine.client = cfg.client := hcli
  have hcl1 : st1.engine.client.isSome = true := by
    rw [hcli2]; exact hclient
  have hpref1 : st1.engine.prefixStr = "p:" := by
    rw [hpref2, hpre]
    rfl
  have hkey : getSid st1.engine id = "p:" ++ id := by
    show st1.engine.prefixStr ++ id = "p:" ++ id
    rw [hpref1]
  have hset : set (fun _ => false) (initialState α cfg) id payload now =
      ({ st1 with records := (updateOneUpsert (getSid st1.engine id)
          (setDoc st1 id payload now) st1.records) }, Except.ok ()) := by
    simp only [set]
    rw [hI]
    rfl
  have hrecs : ((set (fun _ => false) (initialState α cfg) id payload now).1).records =
      [setDoc st1 id payload now] := by
    rw [hset]
    show updateOneUpsert (getSid st1.engine id) (setDoc st1 id payload now) st1.records =
      [setDoc st1 id payload now]
    rw [hrec2]
    rfl
  have hdocsid : (setDoc st1 id payload now).sessionId = "p:" ++ id := by
    show getSid st1.engine id = "p:" ++ id
    exact hkey
  have hneq : ¬ ("p:" ++ id = id) := by
    intro h
    have h2l := congrArg String.length h
    rw [String.length_append] at h2l
    have h3l : ("p:" : String).length = 2 := rfl
    rw [h3l] at h2l
    omega
  refine ⟨fun e s => rfl, fun cfg2 h2 => by simp [mkMongoStoreBase, h2], ?_, ?_, ?_, ?_⟩
  · intro r hr
    rw [hrecs] at hr
    rcases List.mem_singleton.mp hr with rfl
    exact hdocsid
  · have hcl2 : ((set (fun _ => false) (initialState α cfg) id payload now).1).engine.client.isSome
        = true := by
      rw [hset]; exact hcl1
    rw [get_eval (fun _ => false) _ id now hcl2]
    have hkey2 : getSid ((set (fun _ => false) (initialState α cfg) id payload
        now).1).engine id = getSid st1.engine id := by
      rw [hset]
    rw [hrecs, hkey2]
    have hlive : now < (setDoc st1 id payload now).expiresMs := by
      show now < now + st1.engine.config.ttlMs
      rw [hconf2]
      omega
    rw [List.find?_cons_of_pos _ (by simp [hlive, setDoc, hconf2, httl])]
    rfl
  · rw [hrecs]
    rw [List.find?_cons_of_neg _ (by simp [hdocsid, hneq])]
    rfl
  · rw [hrecs]
    rw [List.find?_cons_of_pos _ (by simp [hdocsid])]
    rfl

/-- C5 witness: a concrete prefixed configuration. -/
theorem C5_key_namespacing_witness :
    (sampleParamsP.prefixStr = some "p:" ∧ sampleParamsP.client.isSome = true ∧
      ¬ sampleParamsP.dbName = "" ∧ ¬ sampleParamsP.collection = "" ∧
      0 < sampleParamsP.ttlMs) ∧
    ((∀ (e : MongoStoreBase) (s : String), getSid e s = e.prefixStr ++ s) ∧
    (∀ cfg2 : MongoStoreParams, cfg2.prefixStr = none →
      (mkMongoStoreBase cfg2).prefixStr = "") ∧
    (∀ r ∈ ((set (fun _ => false) (initialState Nat sampleParamsP) "abc" 7 0).1).records,
      r.sessionId = "p:" ++ "abc") ∧
    ((get (fun _ => false) (set (fun _ => false) (initialState Nat sampleParamsP) "abc" 7
        0).1 "abc" 0).2 = Except.ok (some 7)) ∧
    (((set (fun _ => false) (initialState Nat sampleParamsP) "abc" 7 0).1).records.find?
      (fun r => r.sessionId == "abc") = none) ∧
    ((((set (fun _ => false) (initialState Nat sampleParamsP) "abc" 7 0).1).records.find?
      (fun r => r.sessionId == ("p:" ++ "abc"))).map (fun r => r.data) = some 7)) :=
  ⟨⟨by decide, by decide, by decide, by decide, by decide⟩,
    C5_key_namespacing sampleParamsP "abc" 7 0 (by decide) (by decide) (by decide)
      (by decide) (by decide)⟩

/-- C6: on an engine whose client is not yet assigned, initialization
validates the configuration in the fixed order client, dbName, collection,
failing on the first missing field with the corresponding error and leaving
the state (in particular the index log) untouched, so no index is created;
and when initialization fails, every operation surfaces that same error to
its caller. -/
theorem C6_config_validation_order (idxFail : String → Bool) (st : StoreState α)
    (sid : String) (payload : α) (now : Nat) (h0 : st.engine.client = none) :
    (st.engine.config.client = none →
      init idxFail st = (st, some "express-session-mongo: client not defined")) ∧
    (st.engine.config.client.isSome = true → st.engine.config.dbName = "" →
      init idxFail st = (st, some "express-session-mongo: dbName not defined")) ∧
    (st.engine.config.client.isSome = true → ¬ st.engine.config.dbName = "" →
      st.engine.config.collection = "" →
      init idxFail st = (st, some "express-session-mongo: collection not defined")) ∧
    (∀ e : String, (init idxFail st).2 = some e →
      get idxFail st sid now = ((init idxFail st).1, Except.error e) ∧
      set idxFail st sid payload now = ((init idxFail st).1, Except.error e) ∧
      destroy idxFail st sid = ((init idxFail st).1, Except.error e) ∧
      all idxFail st now = ((init idxFail st).1, Except.error e) ∧
      length idxFail st now = ((init idxFail st).1, Except.error e) ∧
      clear idxFail st = ((init idxFail st).1, Except.error e) ∧
      touch idxFail st sid payload now = ((init idxFail st).1, Except.error e) ∧
      removeExpiredSessions idxFail st now = ((init idxFail st).1, Except.error e)) := by
  have h0s : st.engine.client.isSome = false := by rw [h0]; rfl
  refine ⟨?_, ?_, ?_, ?_⟩
  · intro hcc
    have h1t : st.engine.config.client.isNone = true := by rw [hcc]; rfl
    simp [init, h0s, h1t]
  · intro hcs hdb
    have h1f : st.engine.config.client.isNone = false := by
      revert hcs; cases st.engine.config.client <;> simp
    simp [init, h0s, h1f, hdb]
  · intro hcs hdb hcoll
    have h1f : st.engine.config.client.isNone = false := by
      revert hcs; cases st.engine.config.client <;> simp
    simp [init, h0s, h1f, hdb, hcoll]
  · intro e he
    cases hI : init idxFail st with
    | mk st1 r =>
      rw [hI] at he
      obtain rfl : r = some e := he
      refine ⟨?_, ?_, ?_, ?_, ?_, ?_, ?_, ?_⟩ <;>
        simp [get, set, destroy, all, length, clear, touch, removeExpiredSessions, hI]

/-- C6 witness: a configuration with no client on a fresh engine. -/
theorem C6_config_validation_order_witness :
    ((initialState Nat sampleParamsBad).engine.client = none) ∧
    (((initialState Nat sampleParamsBad).engine.config.client = none →
      init (fun _ => false) (initialState Nat sampleParamsBad) =
        (initialState Nat sampleParamsBad,
          some "express-session-mongo: client not defined")) ∧
    ((initialState Nat sampleParamsBad).engine.config.client.isSome = true →
      (initialState Nat sampleParamsBad).engine.config.dbName = "" →
      init (fun _ => false) (initialState Nat sampleParamsBad) =
        (initialState Nat sampleParamsBad,
          some "express-session-mongo: dbName not defined")) ∧
    ((initialState Nat sampleParamsBad).engine.config.client.isSome = true →
      ¬ (initialState Nat sampleParamsBad).engine.config.dbName = "" →
      (initialState Nat sampleParamsBad).engine.config.collection = "" →
      init (fun _ => false) (initialState Nat sampleParamsBad) =
        (initialState Nat sampleParamsBad,
          some "express-session-mongo: collection not defined")) ∧
    (∀ e : String, (init (fun _ => false) (initialState Nat sampleParamsBad)).2 = some e →
      get (fun _ => false) (initialState Nat sampleParamsBad) "abc" 0 =
        ((init (fun _ => false) (initialState Nat sampleParamsBad)).1, Except.error e) ∧
      set (fun _ => false) (initialState Nat sampleParamsBad) "abc" 7 0 =
        ((init (fun _ => false) (initialState Nat sampleParamsBad)).1, Except.error e) ∧
      destroy (fun _ => false) (initialState Nat sampleParamsBad) "abc" =
        ((init (fun _ => false) (initialState Nat sampleParamsBad)).1, Except.error e) ∧
      all (fun _ => false) (initialState Nat sampleParamsBad) 0 =
        ((init (fun _ => false) (initialState Nat sampleParamsBad)).1, Except.error e) ∧
      length (fun _ => false) (initialState Nat sampleParamsBad) 0 =
        ((init (fun _ => false) (initialState Nat sampleParamsBad)).1, Except.error e) ∧
      clear (fun _ => false) (initialState Nat sampleParamsBad) =
        ((init (fun _ => false) (initialState Nat sampleParamsBad)).1, Except.error e) ∧
      touch (fun _ => false) (initialState Nat sampleParamsBad) "abc" 7 0 =
        ((init (fun _ => false) (initialState Nat sampleParamsBad)).1, Except.error e) ∧
      removeExpiredSessions (fun _ => false) (initialState Nat sampleParamsBad) 0 =
        ((init (fun _ => false) (initialState Nat sampleParamsBad)).1, Except.error e))) :=
  ⟨by decide,
    C6_config_validation_order (fun _ => false) (initialState Nat sampleParamsBad)
      "abc" 7 0 (by decide)⟩

/-- C10: if the first initialization passes the configuration checks but a
`createIndex` call fails, the error propagates to the caller of the
operation that triggered initialization, yet the client field stays
assigned; every later `init` (under any storage behaviour) returns
immediately performing no storage operation, no error is raised by it again,
`hasInit` stays false, and subsequent operations such as `set` proceed
(successfully) against the possibly incomplete schema. -/
theorem C10_index_failure_latch (idxFail : String → Bool) (st : StoreState α)
    (sid : String) (payload : α) (now : Nat)
    (h0 : st.engine.client = none) (hhi : st.engine.hasInit = false)
    (hclient : st.engine.config.client.isSome = true)
    (hdb : ¬ st.engine.config.dbName = "") (hcoll : ¬ st.engine.config.collection = "")
    (herr : (init idxFail st).2.isSome = true) :
    ((init idxFail st).1.engine.client.isSome = true) ∧
    ((init idxFail st).1.engine.hasInit = false) ∧
    (∀ idxFail2 : String → Bool,
      init idxFail2 (init idxFail st).1 = ((init idxFail st).1, none)) ∧
    (∀ e : String, (init idxFail st).2 = some e →
      get idxFail st sid now = ((init idxFail st).1, Except.error e)) ∧
    (∀ idxFail2 : String → Bool,
      (set idxFail2 (init idxFail st).1 sid payload now).2 = Except.ok ()) := by
  have h0s : st.engine.client.isSome = false := by rw [h0]; rfl
  have h1f : st.engine.config.client.isNone = false := by
    revert hclient; cases st.engine.config.client <;> simp
  have hmain : (init idxFail st).1.engine.client = st.engine.config.client ∧
      (init idxFail st).1.engine.hasInit = st.engine.hasInit := by
    by_cases hf1 : idxFail "session_id_idx" = true
    · simp [init, createIndex, h0s, h1f, hdb, hcoll, hf1]
    · have hf1f : idxFail "session_id_idx" = false := by
        revert hf1; cases idxFail "session_id_idx" <;> simp
      by_cases hf2 : idxFail "session_id_expires_idx" = true
      · simp [init, createIndex, h0s, h1f, hdb, hcoll, hf1f, hf2]
      · have hf2f : idxFail "session_id_expires_idx" = false := by
          revert hf2; cases idxFail "session_id_expires_idx" <;> simp
        by_cases hnat : st.engine.config.cleanupStrategy = none ∨
            st.engine.config.cleanupStrategy = some MongoSessionCleanupStrategy.native
        · by_cases hf3 : idxFail "updated_at_ttl_idx" = true
          · simp [init, createIndex, h0s, h1f, hdb, hcoll, hf1f, hf2f, hnat, hf3]
          · have hf3f : idxFail "updated_at_ttl_idx" = false := by
              revert hf3; cases idxFail "updated_at_ttl_idx" <;> simp
            exfalso
            rw [show (init idxFail st).2 = none from by
              simp [init, createIndex, h0s, h1f, hdb, hcoll, hf1f, hf2f, hnat, hf3f]] at herr
            cases herr
        · exfalso
          rw [show (init idxFail st).2 = none from by
            simp [init, createIndex, h0s, h1f, hdb, hcoll, hf1f, hf2f, hnat]] at herr
          cases herr
  have hclres : (init idxFail st).1.engine.client.isSome = true := by
    rw [hmain.1]; exact hclient
  refine ⟨hclres, by rw [hmain.2]; exact hhi, ?_, ?_, ?_⟩
  · intro idxFail2
    exact init_noop idxFail2 _ hclres
  · intro e he
    cases hI : init idxFail st with
    | mk st1 r =>
      rw [hI] at he
      obtain rfl : r = some e := he
      simp [get, hI]
  · intro idxFail2
    rw [set_eval idxFail2 _ sid payload now hclres]

/-- C10 witness: a fresh valid configuration whose first index creation
fails. -/
theorem C10_index_failure_latch_witness :
    ((initialState Nat sampleParams).engine.client = none ∧
      (initialState Nat sampleParams).engine.hasInit = false ∧
      (initialState Nat sampleParams).engine.config.client.isSome = true ∧
      ¬ (initialState Nat sampleParams).engine.config.dbName = "" ∧
      ¬ (initialState Nat sampleParams).engine.config.collection = "" ∧
      (init (fun s => s == "session_id_idx") (initialState Nat sampleParams)).2.isSome =
        true) ∧
    (((init (fun s => s == "session_id_idx")
        (initialState Nat sampleParams)).1.engine.client.isSome = true) ∧
    ((init (fun s => s == "session_id_idx")
        (initialState Nat sampleParams)).1.engine.hasInit = false) ∧
    (∀ idxFail2 : String → Bool,
      init idxFail2 (init (fun s => s == "session_id_idx")
          (initialState Nat sampleParams)).1 =
        ((init (fun s => s == "session_id_idx") (initialState Nat sampleParams)).1,
          none)) ∧
    (∀ e : String,
      (init (fun s => s == "session_id_idx") (initialState Nat sampleParams)).2 = some e →
      get (fun s => s == "session_id_idx") (initialState Nat sampleParams) "abc" 0 =
        ((init (fun s => s == "session_id_idx") (initialState Nat sampleParams)).1,
          Except.error e)) ∧
    (∀ idxFail2 : String → Bool,
      (set idxFail2 (init (fun s => s == "session_id_idx")
          (initialState Nat sampleParams)).1 "abc" 7 0).2 = Except.ok ())) :=
  ⟨⟨by decide, by decide, by decide, by decide, by decide, by decide⟩,
    C10_index_failure_latch (fun s => s == "session_id_idx")
      (initialState Nat sampleParams) "abc" 7 0 (by decide) (by decide) (by decide)
      (by decide) (by decide) (by decide)⟩

/-- C1 (amended): in every interleaving of any number of concurrent tasks
each running `init` on the same fresh engine, the storage layer receives at
most one `createIndex` call per index name (`session_id_idx`,
`session_id_expires_idx`, `updated_at_ttl_idx`), and an `init` call made
once the client field is assigned performs no storage operation and returns
immediately.  (The single-flight await of the original claim does not hold;
see the counterexample.) -/
theorem C1_init_at_most_once (n : Nat) (g : InitGState) (pcs : List InitPc)
    (hreach : InitReach n (g, pcs)) :
    g.indexLog.count "session_id_idx" ≤ 1 ∧
    g.indexLog.count "session_id_expires_idx" ≤ 1 ∧
    g.indexLog.count "updated_at_ttl_idx" ≤ 1 ∧
    (∀ (β : Type) (idxFail : String → Bool) (st : StoreState β),
      st.engine.client.isSome = true → init idxFail st = (st, none)) := by
  have hInv : InitInv g pcs := initInv_reach hreach
  have hcases := indexLog_cases hInv
  refine ⟨?_, ?_, ?_, fun β idxFail st h => init_noop idxFail st h⟩ <;>
    rcases hcases with h|h|h|h <;> rw [h] <;> decide

/-- C1 witness: the initial two-task state is reachable and satisfies the
bounds. -/
theorem C1_init_at_most_once_witness :
    InitReach 2 (initG, List.replicate 2 InitPc.start) ∧
    (initG.indexLog.count "session_id_idx" ≤ 1 ∧
     initG.indexLog.count "session_id_expires_idx" ≤ 1 ∧
     initG.indexLog.count "updated_at_ttl_idx" ≤ 1 ∧
     (∀ (β : Type) (idxFail : String → Bool) (st : StoreState β),
       st.engine.client.isSome = true → init idxFail st = (st, none))) :=
  ⟨Relation.ReflTransGen.refl,
    C1_init_at_most_once 2 initG (List.replicate 2 InitPc.start)
      Relation.ReflTransGen.refl⟩

/-- C1 counterexample: with two concurrent callers on a fresh engine, the
state in which the second caller's `init` has already returned (`done`)
while initialization is incomplete (`hasInit = false`, only
`session_id_idx` created so far) is reachable; hence it is false that every
operation issued before initialization completes awaits the single shared
in-flight initialization attempt. -/
theorem C1_no_await_counterexample :
    InitReach 2 ({ clientSet := true, hasInit := false, indexLog := ["session_id_idx"] },
      [InitPc.wait1, InitPc.done]) ∧
    ¬ (∀ (g : InitGState) (pcs : List InitPc), InitReach 2 (g, pcs) →
        ∀ pc ∈ pcs, pc = InitPc.done → g.hasInit = true) := by
  have h1 : SysStep (initG, [InitPc.start, InitPc.start])
      ({ clientSet := true, hasInit := false, indexLog := ["session_id_idx"] },
        [InitPc.wait1, InitPc.start]) := by
    have h := SysStep.mk initG [] [InitPc.start] InitPc.start
    simpa [initStep, initG] using h
  have h2 : SysStep
      ({ clientSet := true, hasInit := false, indexLog := ["session_id_idx"] },
        [InitPc.wait1, InitPc.start])
      ({ clientSet := true, hasInit := false, indexLog := ["session_id_idx"] },
        [InitPc.wait1, InitPc.done]) := by
    have h := SysStep.mk
      ({ clientSet := true, hasInit := false, indexLog := ["session_id_idx"] } : InitGState)
      [InitPc.wait1] [] InitPc.start
    simpa [initStep] using h
  have hre :
      InitReach 2
        ({ clientSet := true, hasInit := false, indexLog := ["session_id_idx"] },
          [InitPc.wait1, InitPc.done]) :=
    Relation.ReflTransGen.tail (Relation.ReflTransGen.single h1) h2
  refine ⟨hre, fun hclaim => ?_⟩
  have hdone := hclaim _ _ hre InitPc.done (by simp) rfl
  simp at hdone

end ExpressSessionMongo
